import Mathlib

/-!
Verification of the cryptocurrency market dashboard's fetch/retry/normalize
core, shallowly embedded from the repository's Python sources
(`model/model.py`, `model/crypto_data.py`, `model/data_treatment.py`,
`model/MarketDataFormatter.py`, `controller/exchange_controller.py`,
`app.py`).  Python floats are modelled as exact fractions of machine-free
integers; the Python fixed-point format specifications are modelled by an
executable decimal formatter with round-half-to-even, matching CPython's
behaviour on the decimal values exercised here.  HTTP is modelled by an
explicit upstream function from attempt index to response.
-/

namespace CryptoDash

/-! ## Numbers: Python floats as exact fractions -/

/-- A numeric value `n / d` (intended `0 < d`): the model of the Python
float/int values flowing through the formatting code. -/
structure Q where
  n : Int
  d : Nat
deriving DecidableEq, Repr

instance (k : Nat) : OfNat Q k := ⟨⟨k, 1⟩⟩

/-- Comparison `a ≤ b` on fraction values by cross-multiplication (denominators
intended positive). -/
def Q.ble (a b : Q) : Bool := a.n * b.d ≤ b.n * a.d

/-- Division of fraction values (the model of Python `/` on floats). -/
def Q.div (a b : Q) : Q :=
  if b.n < 0 then ⟨-(a.n * b.d), a.d * b.n.natAbs⟩
  else ⟨a.n * b.d, a.d * b.n.natAbs⟩

/-- Multiply a fraction value by `10 ^ k` (scaling used by fixed-point
formatting). -/
def Q.mulPow10 (a : Q) (k : Nat) : Q := ⟨a.n * 10 ^ k, a.d⟩

/-! ## Decimal formatting: the embedding of Python format specs `,.2f`, `,.0f`, `.2f` -/

/-- Insert a comma after every group of three characters of a reversed digit
list (thousands grouping, working from the least significant digit).  The
first argument is fuel, always called with at least the list length. -/
def commaChunksRev : Nat → List Char → List Char
  | _, [] => []
  | 0, ds => ds
  | fuel + 1, ds =>
      if ds.length ≤ 3 then ds
      else ds.take 3 ++ ',' :: commaChunksRev fuel (ds.drop 3)

/-- Decimal digits of a natural number with thousands separators,
e.g. `commaGroup 1234 = "1,234"`. -/
def commaGroup (k : Nat) : String :=
  let s := toString k
  String.mk (commaChunksRev s.length s.data.reverse).reverse

/-- Decimal digits of `k` left-padded with zeros to width `w`. -/
def padZeros (w : Nat) (k : Nat) : String :=
  let s := toString k
  String.mk (List.replicate (w - s.length) '0') ++ s

/-- Round a fraction value to the nearest integer, halves to even (the
rounding CPython's fixed-point float formatting applies). -/
def roundHalfEven (q : Q) : Int :=
  let f := Int.fdiv q.n q.d
  let r := q.n - f * q.d
  if 2 * r < (q.d : Int) then f
  else if (q.d : Int) < 2 * r then f + 1
  else if f % 2 = 0 then f else f + 1

/-- Fixed-point rendering of a fraction value with `decimals` fractional
digits, optionally with thousands separators: the embedding of Python's
fixed-point format specifications. -/
def fmtFixed (decimals : Nat) (comma : Bool) (x : Q) : String :=
  let v := roundHalfEven (x.mulPow10 decimals)
  let sign := if v < 0 then "-" else ""
  let m := v.natAbs
  let ip := m / 10 ^ decimals
  let fp := m % 10 ^ decimals
  let ipStr := if comma then commaGroup ip else toString ip
  if decimals = 0 then sign ++ ipStr
  else sign ++ ipStr ++ "." ++ padZeros decimals fp

/-- Python format spec `,.2f`: two decimals, thousands separators. -/
def fmtComma2 (x : Q) : String := fmtFixed 2 true x

/-- Python format spec `,.0f`: zero decimals, thousands separators. -/
def fmtComma0 (x : Q) : String := fmtFixed 0 true x

/-- Python format spec `.2f`: two decimals, no separators. -/
def fmtPlain2 (x : Q) : String := fmtFixed 2 false x

/-! ## The HTTP layer

An upstream is a function from attempt index to response; a response is
either a status code with a (parsed) body, or a network-level error
(connection failure / timeout, i.e. a `requests.RequestException` that is
not an HTTP status).  The body is the JSON payload; `pd.DataFrame(...)` on
it is treated as the identity on content. -/

/-- One upstream HTTP response. -/
inductive Resp where
  | ok (code : Nat) (body : String)
  | netError
deriving DecidableEq, Repr

/-- Observable outcome of `get_live_data`: the returned value (`none`
models the Python `None` after exhaustion), the backoff sleeps performed
in order (seconds), and the number of upstream GETs issued. -/
structure FetchTrace where
  result : Option String
  sleeps : List Nat
  calls : Nat
deriving DecidableEq, Repr

/-- Loop body of `get_live_data` (`controller/exchange_controller.py`,
lines 19-42).  `fuel` is `max_retries - retries`; the attempt index equals
`retries` because every loop iteration issues exactly one GET.  A 429
sleeps `2 ^ retries` and retries; any other HTTP error status (what
`raise_for_status` raises on, caught by the generic `except`) and any
network error increment `retries` first and then sleep `2 ^ retries`,
i.e. `2 ^ (old retries + 1)`. -/
def get_live_data_go (upstream : Nat → Resp) : Nat → Nat → FetchTrace
  | 0, _ => ⟨none, [], 0⟩
  | fuel + 1, retries =>
      match upstream retries with
      | .ok code body =>
          if code = 429 then
            let t := get_live_data_go upstream fuel (retries + 1)
            ⟨t.result, 2 ^ retries :: t.sleeps, t.calls + 1⟩
          else if 400 ≤ code ∧ code < 600 then
            let t := get_live_data_go upstream fuel (retries + 1)
            ⟨t.result, 2 ^ (retries + 1) :: t.sleeps, t.calls + 1⟩
          else ⟨some body, [], 1⟩
      | .netError =>
          let t := get_live_data_go upstream fuel (retries + 1)
          ⟨t.result, 2 ^ (retries + 1) :: t.sleeps, t.calls + 1⟩

/-- Function `get_live_data` of `controller/exchange_controller.py`: manual retry
loop with exponential backoff, starting at `retries = 0`.  URL
construction and JSON-to-DataFrame parsing are elided: the upstream
function stands for `requests.get` on the fixed URL. -/
def get_live_data (upstream : Nat → Resp) (max_retries : Nat := 5) : FetchTrace :=
  get_live_data_go upstream max_retries 0

/-- Result of a `session.get` through `requests_retry_session`: either a
final response (status, body) or a raised `RetryError` after retry
exhaustion. -/
inductive SessResult where
  | raised
  | response (code : Nat) (body : String)
deriving DecidableEq, Repr

/-- Outcome of a `session.get`, together with the number of upstream GETs
issued. -/
structure SessionTrace where
  result : SessResult
  calls : Nat
deriving DecidableEq, Repr

/-- The status set retried by `requests_retry_session`
(`model/crypto_data.py` line 15, `model/model.py` line 85). -/
def status_forcelist : List Nat := [500, 502, 503, 504]

/-- Model of `session.get` through the `urllib3.util.retry.Retry` adapter built by
`requests_retry_session`: a response whose status is in the force list,
or a network error, consumes one retry; when retries are exhausted a
`MaxRetryError`/`RetryError` is raised.  Any other status is returned
immediately.  `fuel` is the remaining retry budget (`total`). -/
def session_get_go (upstream : Nat → Resp) (forcelist : List Nat) :
    Nat → Nat → SessionTrace
  | 0, attempt =>
      match upstream attempt with
      | .ok code body =>
          if code ∈ forcelist then ⟨.raised, 1⟩ else ⟨.response code body, 1⟩
      | .netError => ⟨.raised, 1⟩
  | fuel + 1, attempt =>
      match upstream attempt with
      | .ok code body =>
          if code ∈ forcelist then
            let t := session_get_go upstream forcelist fuel (attempt + 1)
            ⟨t.result, t.calls + 1⟩
          else ⟨.response code body, 1⟩
      | .netError =>
          let t := session_get_go upstream forcelist fuel (attempt + 1)
          ⟨t.result, t.calls + 1⟩

/-- Function `fetch_crypto_data` (`model/crypto_data.py` lines 29-42,
`model/model.py` lines 109-130): one `session.get` through the retry
session (3 retries, force list `{500, 502, 503, 504}`), then
`raise_for_status`; every `requests.RequestException` — including the
`RetryError` after exhaustion and the `HTTPError` from a non-retried
error status — is caught and converted to `None`.  Returns the result
together with the number of upstream GETs issued. -/
def fetch_crypto_data (upstream : Nat → Resp) : Option String × Nat :=
  let t := session_get_go upstream status_forcelist 3 0
  match t.result with
  | .raised => (none, t.calls)
  | .response code body =>
      if 400 ≤ code ∧ code < 600 then (none, t.calls) else (some body, t.calls)

/-! ## Day-range snapping -/

/-- A member of the `VALID_OHLC_DAYS` list: a day count or the string
`"max"`. -/
inductive OhlcRange where
  | days (k : Int)
  | maxRange
deriving DecidableEq, Repr

/-- Constant `VALID_OHLC_DAYS` (`model/crypto_data.py` line 9, `model/model.py`
line 69). -/
def VALID_OHLC_DAYS : List OhlcRange :=
  [.days 1, .days 7, .days 14, .days 30, .days 90, .days 180, .days 365, .maxRange]

/-- The numeric members of `VALID_OHLC_DAYS` with `"max"` (the last
element) excluded, as in `VALID_OHLC_DAYS[:-1]`. -/
def numericDays : List Int :=
  VALID_OHLC_DAYS.dropLast.filterMap fun r =>
    match r with
    | .days k => some k
    | .maxRange => none

/-- Python `min(xs, key=...)` on a nonempty list: left fold keeping the
earliest element with the strictly smallest key. -/
def pyMinBy (key : Int → Nat) (x : Int) (xs : List Int) : Int :=
  xs.foldl (fun best y => if key y < key best then y else best) x

/-- Function `closest_valid_days` (`model/crypto_data.py` lines 11-13,
`model/model.py` lines 71-82): `min(VALID_OHLC_DAYS[:-1],
key=lambda x: abs(x - days))`.  The empty-list case is unreachable
(the list is a fixed nonempty constant). -/
def closest_valid_days (days : Int) : Int :=
  match numericDays with
  | [] => 0
  | x :: xs => pyMinBy (fun c => (c - days).natAbs) x xs

/-! ## Config loader -/

/-- The hard-coded default base URL (`model/data_treatment.py` line 56,
`model/model.py` line 63). -/
def DEFAULT_BASE_URL : String := "https://api.coingecko.com/api/v3/"

/-- Observable outcome of one `load_config` call: the returned base URL,
whether this call emitted the "config file not found" warning, and the
value of the process-wide `_config_loaded` flag afterwards. -/
structure LoadResult where
  base_url : String
  warned : Bool
  flag : Bool
deriving DecidableEq, Repr

/-- Function `load_config` (`model/data_treatment.py` lines 38-56, `model/model.py`
lines 47-63).  `file_exists` models `os.path.exists(config_file)` and
`file_base_url` the `base_url` field of the parsed file; `flag` is the
global `_config_loaded` before the call. -/
def load_config (file_exists : Bool) (file_base_url : String) (flag : Bool) :
    LoadResult :=
  if file_exists then ⟨file_base_url, false, flag⟩
  else ⟨DEFAULT_BASE_URL, !flag, true⟩

/-- A sequence of `load_config` calls with the config file absent,
threading the `_config_loaded` flag; yields per call the returned base URL
and whether that call warned. -/
def load_config_seq : Nat → Bool → List (String × Bool)
  | 0, _ => []
  | k + 1, flag =>
      let r := load_config false "" flag
      (r.base_url, r.warned) :: load_config_seq k r.flag

/-! ## Price and large-number formatting -/

/-- The currency-symbol dictionary of `format_price` in `model/model.py`
lines 180-187 (correctly encoded euro and pound signs). -/
def currency_symbols : List (String × String) :=
  [("usd", "$"), ("eur", "€"), ("gbp", "£"),
   ("USD", "$"), ("EUR", "€"), ("GBP", "£")]

/-- Function `format_price` (`model/model.py` lines 169-190):
`currency_symbols.get(currency, "$")` followed by the `,.2f` rendering of
the price. -/
def format_price (price : Q) (currency : String) : String :=
  let symbol := (currency_symbols.lookup currency).getD "$"
  symbol ++ fmtComma2 price

/-- Function `format_large_number` (`model/model.py` lines 192-208). -/
def format_large_number (num : Q) : String :=
  if Q.ble ⟨10 ^ 9, 1⟩ num then fmtPlain2 (num.div ⟨10 ^ 9, 1⟩) ++ "B"
  else if Q.ble ⟨10 ^ 6, 1⟩ num then fmtPlain2 (num.div ⟨10 ^ 6, 1⟩) ++ "M"
  else if Q.ble ⟨10 ^ 3, 1⟩ num then fmtPlain2 (num.div ⟨10 ^ 3, 1⟩) ++ "K"
  else fmtPlain2 num

namespace MarketDataFormatter

/-- The symbol dictionary of `MarketDataFormatter.format_price`
(`model/MarketDataFormatter.py` line 7).  The source file's bytes for the
euro and pound entries are UTF-8 mojibake: the values are the literal
three-character string U+00E2 U+201A U+00AC and two-character string
U+00C2 U+00A3, not "€" and "£". -/
def symbols : List (String × String) :=
  [("usd", "$"), ("eur", "â‚¬"), ("gbp", "Â£"),
   ("USD", "$"), ("EUR", "â‚¬"), ("GBP", "Â£")]

/-- Method `MarketDataFormatter.format_price`
(`model/MarketDataFormatter.py` lines 4-9). -/
def format_price (price : Q) (currency : String) : String :=
  let symbol := (symbols.lookup currency).getD "$"
  symbol ++ fmtComma2 price

/-- Method `MarketDataFormatter.format_large_number`
(`model/MarketDataFormatter.py` lines 11-20); textually identical to
`format_large_number` in `model/model.py`. -/
def format_large_number (num : Q) : String :=
  if Q.ble ⟨10 ^ 9, 1⟩ num then fmtPlain2 (num.div ⟨10 ^ 9, 1⟩) ++ "B"
  else if Q.ble ⟨10 ^ 6, 1⟩ num then fmtPlain2 (num.div ⟨10 ^ 6, 1⟩) ++ "M"
  else if Q.ble ⟨10 ^ 3, 1⟩ num then fmtPlain2 (num.div ⟨10 ^ 3, 1⟩) ++ "K"
  else fmtPlain2 num

end MarketDataFormatter

/-- The large-number abbreviation rule as the specification states it
(spec section 4.4): values at least `1e9` render as the `.2f` image of
`v / 1e9` suffixed `B`, at least `1e6` as `M`, at least `1e3` as `K`,
otherwise plain `.2f`.  Stated from the spec's words, for comparison with
the source-derived `format_large_number`. -/
def format_large_number_spec (v : Q) : String :=
  if Q.ble ⟨10 ^ 9, 1⟩ v then fmtPlain2 (v.div ⟨10 ^ 9, 1⟩) ++ "B"
  else if Q.ble ⟨10 ^ 6, 1⟩ v then fmtPlain2 (v.div ⟨10 ^ 6, 1⟩) ++ "M"
  else if Q.ble ⟨10 ^ 3, 1⟩ v then fmtPlain2 (v.div ⟨10 ^ 3, 1⟩) ++ "K"
  else fmtPlain2 v

/-! ## The table normalizer (`prepare_live_data_table`, `app.py` 131-172)

A DataFrame is an ordered list of named columns; a cell is a number, a
string, or a date value.  Steps that can raise in Python (applying a
numeric format spec to a string cell, parsing a date) return `Option`;
`none` models the exception propagating out of the function. -/

/-- One DataFrame cell. -/
inductive Cell where
  | num (q : Q)
  | str (s : String)
  | date (s : String)
deriving DecidableEq, Repr

/-- A DataFrame: named columns in display order, each a list of cells. -/
abbrev Table := List (String × List Cell)

/-- The names of a table's columns (`df.columns`). -/
def colNames (t : Table) : List String := t.map (·.1)

/-- Look a column up by name. -/
def getCol (t : Table) (name : String) : Option (List Cell) :=
  (t.find? (·.1 = name)).map (·.2)

/-- The fixed source-column to display-label mapping of
`prepare_live_data_table` (`app.py` lines 134-145), in declaration
order. -/
def column_mapping : List (String × String) :=
  [("market_cap_rank", "Rank"),
   ("name", "name"),
   ("image", "image"),
   ("symbol", "symbol"),
   ("current_price", "current_price"),
   ("market_cap", "market_cap"),
   ("circulating_supply", "Circulating Supply"),
   ("total_volume", "total_volume"),
   ("ath", "All Time High"),
   ("ath_date", "All Time High Date")]

/-- Column selection `df[display_columns]` where
`display_columns = [col for col in column_mapping.keys() if col in
df.columns]`: the mapping's keys that are present, selected in mapping
order. -/
def selectCols (t : Table) (cols : List String) : Table :=
  cols.filterMap fun c => (getCol t c).map fun v => (c, v)

/-- Renaming `df.rename(columns=column_mapping)`: every column name is sent through
the mapping, names without an entry are kept. -/
def renameCols (t : Table) (m : List (String × String)) : Table :=
  t.map fun p => ((m.lookup p.1).getD p.1, p.2)

/-- Conversion `pd.to_datetime(x).dt.date` on one cell: an ISO datetime string keeps
its first ten characters (the calendar date); a date value is unchanged.
A numeric cell would be interpreted as an epoch by pandas; that conversion
is not modelled (`none`), and no theorem below reaches it. -/
def toDateCell : Cell → Option Cell
  | .str s => some (.date (s.take 10))
  | .date s => some (.date s)
  | .num _ => none

/-- The money-formatting pass on one cell, the symbol followed by the
comma-two-decimals rendering: defined on numbers; on a string or date cell
Python raises `ValueError` (format code f on a non-numeric), modelled as
`none`. -/
def fmtMoneyCell (symbol : String) : Cell → Option Cell
  | .num q => some (.str (symbol ++ fmtComma2 q))
  | _ => none

/-- The comma-zero-decimals formatting pass on one cell; raises on non-numbers. -/
def fmtGroupCell : Cell → Option Cell
  | .num q => some (.str (fmtComma0 q))
  | _ => none

/-- The comma-two-decimals formatting pass (no symbol) on one cell; raises on non-numbers. -/
def fmtSupplyCell : Cell → Option Cell
  | .num q => some (.str (fmtComma2 q))
  | _ => none

/-- Guarded column update, in Python: if the name is in the columns,
assign the column its image under f cell by cell.  Transform the
named column cell by cell if it is present, otherwise leave the table
unchanged; a `none` from `f` is an exception propagating out. -/
def applyCol (t : Table) (name : String) (f : Cell → Option Cell) :
    Option Table :=
  if (colNames t).contains name then
    t.mapM fun p =>
      if p.1 = name then (p.2.mapM f).map fun v => (p.1, v)
      else some p
  else some t

/-- Function `prepare_live_data_table` (`app.py` lines 131-172) on the value level:
select the mapped columns in mapping order, rename them, convert the ATH
date column to calendar dates, then apply the currency formatting passes
in source order.  The input table is the value of `data.copy()`; `none`
models an uncaught exception. -/
def prepare_live_data_table (data : Table) (currency_symbol : String) :
    Option Table := do
  let df := selectCols data (column_mapping.map (·.1))
  let df := renameCols df column_mapping
  let df ← applyCol df "All Time High Date" toDateCell
  let symbol := if currency_symbol = "USD" then "$" else "€"
  let df ← applyCol df "current_price" (fmtMoneyCell symbol)
  let df ← applyCol df "All Time High" (fmtMoneyCell symbol)
  let df ← applyCol df "market_cap" fmtGroupCell
  let df ← applyCol df "total_volume" fmtGroupCell
  let df ← applyCol df "Circulating Supply" fmtSupplyCell
  return df

/-! ## Heap-level model of `prepare_live_data_table`

To settle the frame claim (the cached source table is not mutated) the
function is re-traced statement by statement over an explicit heap:
DataFrames live at references, `data.copy()`, `df[cols]` and
`df.rename(...)` allocate fresh frames, and the five
`df[col] = df[col].apply(...)` assignments mutate the frame in place. -/

/-- A heap of DataFrames: a partial map from references to tables plus the
next fresh reference. -/
structure Heap where
  mem : Nat → Option Table
  next : Nat

/-- Allocate a fresh reference holding `t`. -/
def Heap.alloc (h : Heap) (t : Table) : Heap × Nat :=
  (⟨fun x => if x = h.next then some t else h.mem x, h.next + 1⟩, h.next)

/-- Overwrite the table at reference `r` (in-place DataFrame mutation). -/
def Heap.write (h : Heap) (r : Nat) (t : Table) : Heap :=
  ⟨fun x => if x = r then some t else h.mem x, h.next⟩

/-- Mutate the frame at `r` by an `Option`-valued step; a `none` step is an
exception: the heap is left as is and no result reference is produced. -/
def Heap.mutate (h : Heap) (r : Nat) (step : Option Table) :
    Heap × Option Nat :=
  match step with
  | none => (h, none)
  | some t => (h.write r t, some r)

/-- Function `prepare_live_data_table` over the heap, one Python statement at a
time.  Returns the final heap and the reference of the returned frame
(`none`: an exception escaped, or `dataRef` was dangling, which cannot
happen in the program). -/
def prepare_live_data_table_heap (h : Heap) (dataRef : Nat)
    (currency_symbol : String) : Heap × Option Nat :=
  match h.mem dataRef with
  | none => (h, none)
  | some data =>
    let (h, _dfCopy) := h.alloc data
    let sel := selectCols data (column_mapping.map (·.1))
    let (h, _dfSel) := h.alloc sel
    let ren := renameCols sel column_mapping
    let (h, df) := h.alloc ren
    let symbol := if currency_symbol = "USD" then "$" else "€"
    match applyCol ren "All Time High Date" toDateCell with
    | none => (h, none)
    | some t1 =>
      let h := h.write df t1
      match applyCol t1 "current_price" (fmtMoneyCell symbol) with
      | none => (h, none)
      | some t2 =>
        let h := h.write df t2
        match applyCol t2 "All Time High" (fmtMoneyCell symbol) with
        | none => (h, none)
        | some t3 =>
          let h := h.write df t3
          match applyCol t3 "market_cap" fmtGroupCell with
          | none => (h, none)
          | some t4 =>
            let h := h.write df t4
            match applyCol t4 "total_volume" fmtGroupCell with
            | none => (h, none)
            | some t5 =>
              let h := h.write df t5
              match applyCol t5 "Circulating Supply" fmtSupplyCell with
              | none => (h, none)
              | some t6 => (h.write df t6, some df)

/-! ## Theorems settling the claims -/

/-- Exhaustion lemma for `get_live_data`: if every upstream response is an
HTTP error status other than 429 or a network error, the loop retries
until the budget is spent, sleeping `2 ^ (retries + 1)` after each failed
attempt, and returns `None`. -/
theorem get_live_data_go_exhaust (up : Nat → Resp)
    (h : ∀ k code body, up k = .ok code body →
      code ≠ 429 ∧ 400 ≤ code ∧ code < 600) :
    ∀ fuel retries, get_live_data_go up fuel retries =
      ⟨none, (List.range fuel).map (fun i => 2 ^ (retries + 1 + i)), fuel⟩ := by
  intro fuel
  induction fuel with
  | zero => intro retries; simp [get_live_data_go]
  | succ fuel ih =>
    intro retries
    rw [get_live_data_go]
    have hrange : (List.range (fuel + 1)).map (fun i => 2 ^ (retries + 1 + i)) =
        2 ^ (retries + 1) :: (List.range fuel).map (fun i => 2 ^ (retries + 1 + 1 + i)) := by
      rw [List.range_succ_eq_map, List.map_cons, List.map_map]
      refine congrArg₂ _ (by norm_num) (List.map_congr_left ?_)
      intro i _
      have : retries + 1 + (i + 1) = retries + 1 + 1 + i := by omega
      simp [Function.comp, Nat.succ_eq_add_one, this]
    cases hu : up retries with
    | ok code body =>
      obtain ⟨h1, h2, h3⟩ := h retries code body hu
      simp only [h1, if_false, if_neg h1]
      rw [if_pos ⟨h2, h3⟩, ih (retries + 1)]
      simp [hrange]
    | netError =>
      rw [ih (retries + 1)]
      simp [hrange]


/-- Pass-through lemma for the retry session: a response whose status is
not in the force list is returned after a single GET, whatever the
remaining retry budget. -/
theorem session_get_go_pass (up : Nat → Resp) (fl : List Nat)
    (fuel a code : Nat) (body : String)
    (hu : up a = .ok code body) (hn : code ∉ fl) :
    session_get_go up fl fuel a = ⟨.response code body, 1⟩ := by
  cases fuel <;> simp [session_get_go, hu, hn]

/-- Exhaustion lemma for the retry session: if every upstream response has
a status in the force list or is a network error, the session raises after
`fuel + 1` GETs. -/
theorem session_get_go_forced (up : Nat → Resp) (fl : List Nat)
    (h : ∀ k code body, up k = .ok code body → code ∈ fl) :
    ∀ fuel a, session_get_go up fl fuel a = ⟨.raised, fuel + 1⟩ := by
  intro fuel
  induction fuel with
  | zero =>
    intro a
    cases hu : up a with
    | ok code body => simp [session_get_go, hu, h a code body hu]
    | netError => simp [session_get_go, hu]
  | succ fuel ih =>
    intro a
    cases hu : up a with
    | ok code body => simp [session_get_go, hu, h a code body hu, ih (a + 1)]
    | netError => simp [session_get_go, hu, ih (a + 1)]

/-- C2: against an upstream answering 429 twice and then 200 with body
`b`, the live-market fetch returns `b` after exactly two backoff sleeps of
`2 ^ 0 = 1` and `2 ^ 1 = 2` seconds (the retry indices 0 and 1), issuing
three GETs in total. -/
theorem get_live_data_429_twice_then_ok (lim b : String) :
    get_live_data (fun k => if k < 2 then .ok 429 lim else .ok 200 b) 5 =
      ⟨some b, [1, 2], 3⟩ := rfl

/-- C3: against an upstream that always answers HTTP 500 (with arbitrary
bodies), `get_live_data` spends its five-attempt budget sleeping after
every attempt and returns `None`, and the session-based
`fetch_crypto_data` performs its 1 + 3 attempts and returns `None`;
neither lets a failure escape as anything but `None`. -/
theorem fetch_500_exhausts_and_returns_none (b : Nat → String) :
    get_live_data (fun k => .ok 500 (b k)) 5 = ⟨none, [2, 4, 8, 16, 32], 5⟩ ∧
    fetch_crypto_data (fun k => .ok 500 (b k)) = (none, 4) := by
  constructor
  · rw [get_live_data, get_live_data_go_exhaust]
    · norm_num
      decide
    · intro k code body he
      injection he with h1 h2
      omega
  · rw [fetch_crypto_data, session_get_go_forced]
    intro k code body he
    injection he with h1 h2
    subst h1
    decide


/-- C1 counterexample: against an upstream that always answers HTTP 404,
`get_live_data` does not fail immediately: it issues five GETs (not one)
and performs five backoff sleeps (not none) before returning `None`. -/
theorem get_live_data_404_retries_counterexample :
    get_live_data (fun _ => .ok 404 "not found") 5 =
      ⟨none, [2, 4, 8, 16, 32], 5⟩ ∧
    (get_live_data (fun _ => .ok 404 "not found") 5).sleeps ≠ [] ∧
    (get_live_data (fun _ => .ok 404 "not found") 5).calls ≠ 1 := by decide

/-- C1 amended: a 4xx status other than 429 is terminal without retry or
sleep only on the session-based path: `fetch_crypto_data` issues exactly
one GET and returns `None`.  The manual loop `get_live_data` instead
treats the `HTTPError` like any transient failure: it retries with
backoff sleeps `2 ^ (retries + 1)` until `max_retries` and only then
returns `None` — the caller still receives the failure signal, but not
immediately. -/
theorem fetch_4xx_immediate_vs_live_retry (code : Nat) (body : String)
    (h400 : 400 ≤ code) (h500 : code < 500) (h429 : code ≠ 429) :
    fetch_crypto_data (fun _ => .ok code body) = (none, 1) ∧
    get_live_data (fun _ => .ok code body) 5 = ⟨none, [2, 4, 8, 16, 32], 5⟩ := by
  constructor
  · have hn : code ∉ status_forcelist := by
      simp [status_forcelist]
      omega
    rw [fetch_crypto_data, session_get_go_pass _ _ _ _ code body rfl hn]
    simp only
    rw [if_pos ⟨h400, by omega⟩]
  · rw [get_live_data, get_live_data_go_exhaust]
    · norm_num
      decide
    · intro k c b he
      injection he with h1 h2
      omega

/-- C1 amended, witness at status 404. -/
theorem fetch_4xx_immediate_vs_live_retry_witness :
    fetch_crypto_data (fun _ => .ok 404 "x") = (none, 1) ∧
    get_live_data (fun _ => .ok 404 "x") 5 = ⟨none, [2, 4, 8, 16, 32], 5⟩ :=
  fetch_4xx_immediate_vs_live_retry 404 "x" (by decide) (by decide) (by decide)


/-- Unfolding of Python `min` with key over one more list element: the
accumulator keeps the earlier element unless the new key is strictly
smaller. -/
theorem pyMinBy_cons (key : Int → Nat) (x y : Int) (ys : List Int) :
    pyMinBy key x (y :: ys) =
      pyMinBy key (if key y < key x then y else x) ys := rfl

/-- The result of Python `min` with key is an element of the list. -/
theorem pyMinBy_mem (key : Int → Nat) :
    ∀ (xs : List Int) (x : Int), pyMinBy key x xs ∈ x :: xs := by
  intro xs
  induction xs with
  | nil => intro x; simp [pyMinBy]
  | cons y ys ih =>
    intro x
    rw [pyMinBy_cons]
    by_cases hk : key y < key x
    · rw [if_pos hk]
      have h := ih y
      rcases List.mem_cons.mp h with h | h
      · rw [h]
        exact List.mem_cons.mpr (Or.inr (List.mem_cons_self y ys))
      · exact List.mem_cons.mpr (Or.inr (List.mem_cons_of_mem y h))
    · rw [if_neg hk]
      have h := ih x
      rcases List.mem_cons.mp h with h | h
      · rw [h]
        exact List.mem_cons_self x (y :: ys)
      · exact List.mem_cons.mpr (Or.inr (List.mem_cons_of_mem y h))

/-- The result of Python `min` with key has a minimal key. -/
theorem pyMinBy_key_le (key : Int → Nat) :
    ∀ (xs : List Int) (x : Int), ∀ c ∈ x :: xs,
      key (pyMinBy key x xs) ≤ key c := by
  intro xs
  induction xs with
  | nil =>
    intro x c hc
    rcases List.mem_cons.mp hc with rfl | h
    · simp [pyMinBy]
    · simp at h
  | cons y ys ih =>
    intro x c hc
    rw [pyMinBy_cons]
    have hacc : ∀ b : Int,
        key (if key y < key x then y else x) ≤ key x ∧
        key (if key y < key x then y else x) ≤ key y := by
      intro _
      by_cases hk : key y < key x
      · rw [if_pos hk]; exact ⟨Nat.le_of_lt hk, Nat.le_refl _⟩
      · rw [if_neg hk]; exact ⟨Nat.le_refl _, Nat.le_of_not_lt hk⟩
    have hhead := ih (if key y < key x then y else x)
      (if key y < key x then y else x) (List.mem_cons_self _ _)
    rcases List.mem_cons.mp hc with rfl | hc'
    · exact Nat.le_trans hhead (hacc 0).1
    · rcases List.mem_cons.mp hc' with rfl | hc''
      · exact Nat.le_trans hhead (hacc 0).2
      · exact ih (if key y < key x then y else x) c
          (List.mem_cons_of_mem _ hc'')

/-- Python `min` with key returns the accumulator itself unless some later
element has a strictly smaller key. -/
theorem pyMinBy_eq_or_lt (key : Int → Nat) :
    ∀ (xs : List Int) (x : Int),
      pyMinBy key x xs = x ∨ key (pyMinBy key x xs) < key x := by
  intro xs
  induction xs with
  | nil => intro x; exact Or.inl rfl
  | cons y ys ih =>
    intro x
    rw [pyMinBy_cons]
    by_cases hk : key y < key x
    · rw [if_pos hk]
      right
      rcases ih y with h | h
      · rw [h]; exact hk
      · exact Nat.lt_trans h hk
    · rw [if_neg hk]
      exact ih x

/-- First-wins tie rule of Python `min` on an ascending list: any list
element whose key equals the minimal key is at least the returned
element. -/
theorem pyMinBy_tie_le (key : Int → Nat) :
    ∀ (xs : List Int) (x : Int), (x :: xs).Pairwise (· ≤ ·) →
      ∀ c ∈ x :: xs, key c = key (pyMinBy key x xs) →
        pyMinBy key x xs ≤ c := by
  intro xs
  induction xs with
  | nil =>
    intro x _ c hc _
    rcases List.mem_cons.mp hc with rfl | h
    · exact Int.le_refl _
    · simp at h
  | cons y ys ih =>
    intro x hsort c hc hkey
    obtain ⟨hx, hsort'⟩ := List.pairwise_cons.mp hsort
    obtain ⟨hy, hys⟩ := List.pairwise_cons.mp hsort'
    rw [pyMinBy_cons] at hkey ⊢
    by_cases hk : key y < key x
    · rw [if_pos hk] at hkey ⊢
      have hsy : (y :: ys).Pairwise (· ≤ ·) := List.pairwise_cons.mpr ⟨hy, hys⟩
      rcases List.mem_cons.mp hc with rfl | hc'
      · exfalso
        have h1 : key (pyMinBy key y ys) ≤ key y :=
          pyMinBy_key_le key ys y y (List.mem_cons_self _ _)
        omega
      · exact ih y hsy c hc' hkey
    · rw [if_neg hk] at hkey ⊢
      have hsx : (x :: ys).Pairwise (· ≤ ·) :=
        List.pairwise_cons.mpr ⟨fun z hz => hx z (List.mem_cons_of_mem y hz), hys⟩
      rcases List.mem_cons.mp hc with rfl | hc'
      · exact ih _ hsx _ (List.mem_cons_self _ _) hkey
      · rcases List.mem_cons.mp hc' with rfl | hc''
        · rcases pyMinBy_eq_or_lt key ys x with he | hlt
          · rw [he]
            exact hx _ (List.mem_cons_self _ _)
          · exfalso
            omega
        · exact ih _ hsx _ (List.mem_cons_of_mem x hc'') hkey

/-- C4: for every requested day count `d`, `closest_valid_days d` is a
member of the numeric candidate list `[1, 7, 14, 30, 90, 180, 365]`, its
absolute distance to `d` is minimal over that list, and any candidate at
the same distance is at least as large (the declared list is ascending, so
the winner of a tie is the candidate occurring first in declared order);
in particular the snap of 30 is 30 and the snap of 0 is 1. -/
theorem closest_valid_days_correct (d : Int) :
    closest_valid_days d ∈ numericDays ∧
    (∀ c ∈ numericDays,
      (closest_valid_days d - d).natAbs ≤ (c - d).natAbs) ∧
    (∀ c ∈ numericDays,
      (c - d).natAbs = (closest_valid_days d - d).natAbs →
        closest_valid_days d ≤ c) ∧
    closest_valid_days 30 = 30 ∧ closest_valid_days 0 = 1 := by
  have hnum : numericDays = 1 :: [7, 14, 30, 90, 180, 365] := rfl
  have hred : closest_valid_days d =
      pyMinBy (fun c => (c - d).natAbs) 1 [7, 14, 30, 90, 180, 365] := rfl
  refine ⟨?_, ?_, ?_, by decide, by decide⟩
  · rw [hnum, hred]
    exact pyMinBy_mem _ _ _
  · intro c hc
    rw [hnum] at hc
    rw [hred]
    exact pyMinBy_key_le (fun c => (c - d).natAbs) _ _ c hc
  · intro c hc hkey
    rw [hnum] at hc
    rw [hred] at hkey ⊢
    exact pyMinBy_tie_le (fun c => (c - d).natAbs) _ _ (by decide) c hc hkey

/-- C4 witness at the tie point 45 (equidistant from 30 and 90, snapped to
the earlier candidate 30), exercised against candidates 90 and 30. -/
theorem closest_valid_days_correct_witness :
    closest_valid_days 45 ∈ numericDays ∧
    (closest_valid_days 45 - 45).natAbs ≤ ((90 : Int) - 45).natAbs ∧
    (((30 : Int) - 45).natAbs = (closest_valid_days 45 - 45).natAbs →
      closest_valid_days 45 ≤ 30) :=
  ⟨(closest_valid_days_correct 45).1,
   (closest_valid_days_correct 45).2.1 90 (by decide),
   (closest_valid_days_correct 45).2.2.1 30 (by decide)⟩


/-- C6: `format_price` in `model/model.py` renders 1234.5 with the correct
symbol for all six accepted currency codes; but the duplicate
`MarketDataFormatter.format_price` carries mojibake symbol strings for the
euro and pound entries, so for the codes eur/EUR/gbp/GBP it does not
return the correct symbol: its eur output is the three-character mojibake
sequence, not the euro sign. -/
theorem format_price_symbols_and_mojibake :
    format_price ⟨12345, 10⟩ "usd" = "$1,234.50" ∧
    format_price ⟨12345, 10⟩ "eur" = "€1,234.50" ∧
    format_price ⟨12345, 10⟩ "gbp" = "£1,234.50" ∧
    format_price ⟨12345, 10⟩ "USD" = "$1,234.50" ∧
    format_price ⟨12345, 10⟩ "EUR" = "€1,234.50" ∧
    format_price ⟨12345, 10⟩ "GBP" = "£1,234.50" ∧
    MarketDataFormatter.format_price ⟨12345, 10⟩ "eur" = "â‚¬1,234.50" ∧
    MarketDataFormatter.format_price ⟨12345, 10⟩ "eur" ≠ "€1,234.50" ∧
    MarketDataFormatter.format_price ⟨12345, 10⟩ "gbp" ≠ "£1,234.50" ∧
    MarketDataFormatter.format_price ⟨12345, 10⟩ "usd" = "$1,234.50" := by
  decide

/-- C8: the large-number abbreviation agrees everywhere with the rule as
the specification states it (both source copies), and produces the three
anchor outputs. -/
theorem format_large_number_correct :
    (∀ v : Q, format_large_number v = format_large_number_spec v) ∧
    (∀ v : Q, MarketDataFormatter.format_large_number v = format_large_number v) ∧
    format_large_number ⟨1500000000, 1⟩ = "1.50B" ∧
    format_large_number ⟨2500, 1⟩ = "2.50K" ∧
    format_large_number ⟨42, 1⟩ = "42.00" :=
  ⟨fun _ => rfl, fun _ => rfl, by decide, by decide, by decide⟩

/-- C10: for a currency code outside the six dictionary keys, both copies
of `format_price` fall back to the dollar symbol: the result is the dollar
sign followed by the comma-two-decimals rendering of the price, never a
failure or an unprefixed string. -/
theorem format_price_unknown_currency (p : Q) (c : String)
    (h : c ∉ ["usd", "eur", "gbp", "USD", "EUR", "GBP"]) :
    format_price p c = "$" ++ fmtComma2 p ∧
    MarketDataFormatter.format_price p c = "$" ++ fmtComma2 p := by
  simp only [List.mem_cons, List.mem_singleton, not_or] at h
  obtain ⟨h1, h2, h3, h4, h5, h6, -⟩ := h
  have e1 : (c == "usd") = false := beq_eq_false_iff_ne.mpr h1
  have e2 : (c == "eur") = false := beq_eq_false_iff_ne.mpr h2
  have e3 : (c == "gbp") = false := beq_eq_false_iff_ne.mpr h3
  have e4 : (c == "USD") = false := beq_eq_false_iff_ne.mpr h4
  have e5 : (c == "EUR") = false := beq_eq_false_iff_ne.mpr h5
  have e6 : (c == "GBP") = false := beq_eq_false_iff_ne.mpr h6
  constructor
  · simp [format_price, currency_symbols, List.lookup,
      e1, e2, e3, e4, e5, e6]
  · simp [MarketDataFormatter.format_price, MarketDataFormatter.symbols,
      List.lookup, e1, e2, e3, e4, e5, e6]

/-- C10 witness at price 0 and currency code jpy. -/
theorem format_price_unknown_currency_witness :
    format_price ⟨0, 1⟩ "jpy" = "$" ++ fmtComma2 ⟨0, 1⟩ ∧
    MarketDataFormatter.format_price ⟨0, 1⟩ "jpy" = "$" ++ fmtComma2 ⟨0, 1⟩ :=
  format_price_unknown_currency ⟨0, 1⟩ "jpy" (by decide)

/-- Threading lemma: once the warned-once flag is set, every further call
with the file absent returns the default URL and does not warn. -/
theorem load_config_seq_flag_set :
    ∀ k, load_config_seq k true = List.replicate k (DEFAULT_BASE_URL, false) := by
  intro k
  induction k with
  | zero => rfl
  | succ k ih => simp [load_config_seq, load_config, ih, List.replicate]

/-- C7: with the configuration file absent, every call in any sequence of
`load_config` calls (starting from a fresh process, flag unset) returns
the hard-coded default base URL, and at most one call in the sequence
emits the missing-file warning. -/
theorem load_config_absent_defaults_and_warns_once (k : Nat) :
    (∀ p ∈ load_config_seq k false, p.1 = DEFAULT_BASE_URL) ∧
    (load_config_seq k false).countP (fun p => p.2) ≤ 1 := by
  cases k with
  | zero => exact ⟨by simp [load_config_seq], by simp [load_config_seq]⟩
  | succ k =>
    have hseq : load_config_seq (k + 1) false =
        (DEFAULT_BASE_URL, true) :: List.replicate k (DEFAULT_BASE_URL, false) := by
      simp [load_config_seq, load_config, load_config_seq_flag_set]
    rw [hseq]
    constructor
    · intro p hp
      rcases List.mem_cons.mp hp with rfl | hp'
      · rfl
      · exact congrArg Prod.fst (List.eq_of_mem_replicate hp')
    · rw [List.countP_cons]
      have hz : (List.replicate k (DEFAULT_BASE_URL, false)).countP
          (fun p => p.2) = 0 := by
        rw [List.countP_eq_zero]
        intro p hp
        rw [List.eq_of_mem_replicate hp]
        simp
      rw [hz]
      simp

/-- C7 witness for a three-call sequence, applied to the head result. -/
theorem load_config_absent_witness :
    (DEFAULT_BASE_URL, true).1 = DEFAULT_BASE_URL ∧
    (load_config_seq 3 false).countP (fun p => p.2) ≤ 1 :=
  ⟨(load_config_absent_defaults_and_warns_once 3).1 (DEFAULT_BASE_URL, true)
      (by decide),
   (load_config_absent_defaults_and_warns_once 3).2⟩


/-- A one-row raw market table with the standard upstream column layout
and the given payloads. -/
def rawRow (nm img sy athd : String) (rank p mc cs tv ath : Q) : Table :=
  [("id", [.str "bitcoin"]),
   ("symbol", [.str sy]),
   ("name", [.str nm]),
   ("image", [.str img]),
   ("current_price", [.num p]),
   ("market_cap", [.num mc]),
   ("market_cap_rank", [.num rank]),
   ("total_volume", [.num tv]),
   ("circulating_supply", [.num cs]),
   ("ath", [.num ath]),
   ("ath_date", [.str athd])]

/-- A concrete one-row raw market table. -/
def rawTable0 : Table :=
  rawRow "Bitcoin" "http-img" "btc" "2021-11-10T14:24:11.849Z"
    1 ⟨25, 10⟩ 1000 10 20 3

/-- C5 counterexample: on a concrete raw table, applying the normalizer
twice does not equal applying it once — the second application raises
(the numeric money format hits the already-formatted string cells), so
the composition is `none` while the single application is `some` table. -/
theorem prepare_live_data_table_not_idempotent :
    ((prepare_live_data_table rawTable0 "USD").bind
        fun d => prepare_live_data_table d "USD") ≠
      prepare_live_data_table rawTable0 "USD" := by
  decide

/-- C5 amended: the normalizer is not idempotent.  For every currency
symbol and every one-row raw table with the standard column layout, the
first application succeeds, but the second application drops the renamed
columns during selection and then fails with a `ValueError` when
re-applying the numeric price format to the already-formatted string
column, so normalize composed with itself returns `none`, not the
once-normalized table. -/
theorem prepare_live_data_table_second_application_fails
    (s nm img sy athd : String) (rank p mc cs tv ath : Q) :
    (prepare_live_data_table (rawRow nm img sy athd rank p mc cs tv ath) s).isSome
      = true ∧
    ((prepare_live_data_table (rawRow nm img sy athd rank p mc cs tv ath) s).bind
        fun d => prepare_live_data_table d s) = none :=
  ⟨rfl, rfl⟩


/-- C9: the normalizer never mutates the cached source table.  All three
frame-producing steps allocate fresh references and the in-place column
assignments write only to the freshly allocated display frame, so after
`prepare_live_data_table` (whether it returns or raises) the heap still
holds the original table at the source reference. -/
theorem prepare_live_data_table_frame (h : Heap) (dataRef : Nat)
    (s : String) (t : Table)
    (href : dataRef < h.next) (hmem : h.mem dataRef = some t) :
    (prepare_live_data_table_heap h dataRef s).1.mem dataRef = some t := by
  unfold prepare_live_data_table_heap
  rw [hmem]
  simp only [Heap.alloc, Heap.write]
  repeat' split
  all_goals simp only
  all_goals repeat rw [if_neg (by omega : ¬dataRef = h.next + 1 + 1)]
  all_goals repeat rw [if_neg (by omega : ¬dataRef = h.next + 1)]
  all_goals repeat rw [if_neg (by omega : ¬dataRef = h.next)]
  all_goals exact hmem


/-- A one-entry heap holding the concrete raw table at reference 0. -/
def heap0 : Heap := ⟨fun x => if x = 0 then some rawTable0 else none, 1⟩

/-- C9 witness on the one-entry heap: the source table at reference 0 is
untouched by the normalizer. -/
theorem prepare_live_data_table_frame_witness :
    (prepare_live_data_table_heap heap0 0 "USD").1.mem 0 = some rawTable0 :=
  prepare_live_data_table_frame heap0 0 "USD" rawTable0 (by decide) rfl

end CryptoDash
